import Mathlib

/-!
Verification of the prompt-construction and response-normalization pipeline of
the YouTube explainer evaluation repository.

JS strings are modelled as `List Char`.  JS `JSON.parse` (a builtin consumed by
`tryParseJSON` in `src/server/server.js` and
`src/amplify/functions/evaluator/index.js`) is modelled by `parseJSON` below:
a total recursive-descent parser returning `Option Json`, where `none` models a
thrown `SyntaxError`.  JSON numbers are modelled as integers; fractional and
exponent number forms (floating point) are outside the model — no claim under
study mentions a non-integer number, and a text containing one simply fails to
parse in the model.  `\uXXXX` escapes are modelled without surrogate-pair
combination.  Objects are built with JS property-assignment semantics: a
duplicated key keeps its first position and takes the last value.
-/

/-- JS strings, modelled as lists of characters. -/
abbrev Str := List Char

/-- The character `{` (written via its code point to keep it out of literals). -/
def lbrace : Char := Char.ofNat 123

/-- The character `}`. -/
def rbrace : Char := Char.ofNat 125

/-- The character `"`. -/
def quoteChar : Char := Char.ofNat 34

/-- The character `\`. -/
def backslashChar : Char := Char.ofNat 92

/-- JSON values as produced by `JSON.parse`. -/
inductive Json where
  | null : Json
  | bool (b : Bool) : Json
  | num (n : Int) : Json
  | str (s : Str) : Json
  | arr (elems : List Json) : Json
  | obj (fields : List (Str × Json)) : Json

/-- JSON whitespace accepted by `JSON.parse`: space, tab, line feed, carriage return. -/
def isWs (c : Char) : Bool :=
  c = ' ' || c = '\t' || c = '\n' || c = '\r'

/-- Drop leading JSON whitespace. -/
def skipWs : Str → Str
  | [] => []
  | c :: cs => if isWs c then skipWs cs else c :: cs

/-- `stripLit lit cs` returns the rest of `cs` after the literal `lit`, when
`cs` starts with `lit`. -/
def stripLit : Str → Str → Option Str
  | [], cs => some cs
  | _ :: _, [] => none
  | k :: ks, c :: cs => if c = k then stripLit ks cs else none

/-- Value of a hexadecimal digit. -/
def hexVal (c : Char) : Option Nat :=
  if '0' ≤ c && c ≤ '9' then some (c.toNat - 48)
  else if 'a' ≤ c && c ≤ 'f' then some (c.toNat - 87)
  else if 'A' ≤ c && c ≤ 'F' then some (c.toNat - 55)
  else none

/-- Translation of the single-character JSON string escapes. -/
def escTable (e : Char) : Option Char :=
  if e = quoteChar then some quoteChar
  else if e = backslashChar then some backslashChar
  else if e = '/' then some '/'
  else if e = 'b' then some (Char.ofNat 8)
  else if e = 'f' then some (Char.ofNat 12)
  else if e = 'n' then some '\n'
  else if e = 'r' then some '\r'
  else if e = 't' then some '\t'
  else none

/-- Parse the body of a JSON string (the opening quote already consumed),
returning the decoded characters and the rest of the input.  `fuel` must
exceed the length of the input; each step consumes at least one character. -/
def pString (fuel : Nat) (cs : Str) : Option (Str × Str) :=
  match fuel with
  | 0 => none
  | fuel + 1 =>
    match cs with
    | [] => none
    | c :: r =>
      if c = quoteChar then some ([], r)
      else if c = backslashChar then
        match r with
        | [] => none
        | e :: r2 =>
          match escTable e with
          | some ch =>
            match pString fuel r2 with
            | some (s, rest) => some (ch :: s, rest)
            | none => none
          | none =>
            if e = 'u' then
              match r2 with
              | h1 :: h2 :: h3 :: h4 :: r3 =>
                match hexVal h1, hexVal h2, hexVal h3, hexVal h4 with
                | some a, some b, some c2, some d =>
                  match pString fuel r3 with
                  | some (s, rest) => some (Char.ofNat (((a * 16 + b) * 16 + c2) * 16 + d) :: s, rest)
                  | none => none
                | _, _, _, _ => none
              | _ => none
            else none
      else if c.toNat < 32 then none
      else
        match pString fuel r with
        | some (s, rest) => some (c :: s, rest)
        | none => none

/-- Take the longest run of decimal digits from the front of the input. -/
def takeDigits : Str → (Str × Str)
  | [] => ([], [])
  | c :: cs =>
    if c.isDigit then
      let (d, r) := takeDigits cs
      (c :: d, r)
    else ([], c :: cs)

/-- Decimal value of a digit string, accumulator style. -/
def digitsToNat (acc : Nat) : Str → Nat
  | [] => acc
  | c :: cs => digitsToNat (acc * 10 + (c.toNat - 48)) cs

/-- Parse a JSON number (integer forms; leading zeros rejected as in JSON). -/
def pNumber (cs : Str) : Option (Int × Str) :=
  let (neg, cs1) :=
    match cs with
    | '-' :: r => (true, r)
    | _ => (false, cs)
  match cs1 with
  | [] => none
  | c :: r =>
    if c = '0' then
      match r with
      | d :: _ => if d.isDigit then none else some (0, r)
      | [] => some (0, [])
    else if c.isDigit then
      let (ds, rest) := takeDigits r
      let n : Nat := digitsToNat 0 (c :: ds)
      some (if neg then -(n : Int) else (n : Int), rest)
    else none

/-- Insert a key/value pair with JS object-assignment semantics: an existing
key keeps its position and takes the new value, a new key is appended. -/
def objInsert (fields : List (Str × Json)) (k : Str) (v : Json) : List (Str × Json) :=
  match fields with
  | [] => [(k, v)]
  | (k', v') :: rest => if k' = k then (k', v) :: rest else (k', v') :: objInsert rest k v

/-- Fold a parsed member list into a JS object field list. -/
def mkObjFields (pairs : List (Str × Json)) : List (Str × Json) :=
  pairs.foldl (fun acc kv => objInsert acc kv.1 kv.2) []

mutual

/-- Parse one JSON value, returning it with the unconsumed rest. -/
def pVal (fuel : Nat) (cs : Str) : Option (Json × Str) :=
  match fuel with
  | 0 => none
  | fuel + 1 =>
    let s := skipWs cs
    match stripLit "null".data s with
    | some r => some (Json.null, r)
    | none =>
    match stripLit "true".data s with
    | some r => some (Json.bool true, r)
    | none =>
    match stripLit "false".data s with
    | some r => some (Json.bool false, r)
    | none =>
    match s with
    | [] => none
    | c :: r =>
      if c = quoteChar then
        match pString (r.length + 1) r with
        | some (body, rest) => some (Json.str body, rest)
        | none => none
      else if c = lbrace then
        let r2 := skipWs r
        match stripLit [rbrace] r2 with
        | some rest => some (Json.obj [], rest)
        | none =>
          match pMembers fuel r2 with
          | some (pairs, rest) => some (Json.obj (mkObjFields pairs), rest)
          | none => none
      else if c = '[' then
        let r2 := skipWs r
        match r2 with
        | ']' :: rest => some (Json.arr [], rest)
        | _ =>
          match pElems fuel r2 with
          | some (vs, rest) => some (Json.arr vs, rest)
          | none => none
      else
        match pNumber s with
        | some (n, rest) => some (Json.num n, rest)
        | none => none

/-- Parse the comma-separated elements of a non-empty JSON array, up to and
including the closing bracket. -/
def pElems (fuel : Nat) (cs : Str) : Option (List Json × Str) :=
  match fuel with
  | 0 => none
  | fuel + 1 =>
    match pVal fuel cs with
    | none => none
    | some (v, rest) =>
      match skipWs rest with
      | ',' :: r2 =>
        match pElems fuel r2 with
        | some (vs, rest2) => some (v :: vs, rest2)
        | none => none
      | ']' :: r2 => some ([v], r2)
      | _ => none

/-- Parse the members of a non-empty JSON object, up to and including the
closing brace. -/
def pMembers (fuel : Nat) (cs : Str) : Option (List (Str × Json) × Str) :=
  match fuel with
  | 0 => none
  | fuel + 1 =>
    match skipWs cs with
    | [] => none
    | c :: r =>
      if c = quoteChar then
        match pString (r.length + 1) r with
        | some (k, r2) =>
          match skipWs r2 with
          | ':' :: r3 =>
            match pVal fuel r3 with
            | some (v, r4) =>
              match skipWs r4 with
              | ',' :: r5 =>
                match pMembers fuel r5 with
                | some (kvs, rest) => some ((k, v) :: kvs, rest)
                | none => none
              | d :: r5 => if d = rbrace then some ([(k, v)], r5) else none
              | [] => none
            | none => none
          | _ => none
        | none => none
      else none

end

/-- Model of `JSON.parse`: parse one value, require only whitespace after it;
`none` models a thrown `SyntaxError`. -/
def parseJSON (text : Str) : Option Json :=
  match pVal (text.length + 1) text with
  | some (v, rest) => if skipWs rest = [] then some v else none
  | none => none

/-- JS `String.prototype.indexOf` restricted to one character: index of the
first occurrence, `none` modelling `-1`. -/
def idxOf (c : Char) : Str → Option Nat
  | [] => none
  | x :: xs => if x = c then some 0 else (idxOf c xs).map (· + 1)

/-- JS `String.prototype.lastIndexOf` restricted to one character. -/
def lastIdxOf (c : Char) : Str → Option Nat
  | [] => none
  | x :: xs =>
    match lastIdxOf c xs with
    | some i => some (i + 1)
    | none => if x = c then some 0 else none

/-- JS `String.prototype.slice(a, b)` for `0 ≤ a ≤ b`. -/
def sliceJS (cs : Str) (a b : Nat) : Str := (cs.drop a).take (b - a)

/-- `tryParseJSON` from `src/server/server.js` lines 95–108 (the identical copy
sits in `src/amplify/functions/evaluator/index.js` lines 80–90): parse the
whole text; on failure parse the substring from the first braceOpen to the last
braceClose inclusive when both exist and the first strictly precedes the last;
otherwise return JS `null` (`Json.null` — exactly the value the source's
`return null` produces). -/
def tryParseJSON (text : Str) : Json :=
  match parseJSON text with
  | some v => v
  | none =>
    match idxOf lbrace text, lastIdxOf rbrace text with
    | some s, some e =>
      if s < e then
        match parseJSON (sliceJS text s (e + 1)) with
        | some v => v
        | none => Json.null
      else Json.null
    | _, _ => Json.null

/-- JS truthiness of a `JSON.parse` result (`undefined`/`NaN` cannot occur). -/
def jsTruthy : Json → Bool
  | Json.null => false
  | Json.bool b => b
  | Json.num n => n != 0
  | Json.str s => s != []
  | Json.arr _ => true
  | Json.obj _ => true

/-- Assoc-list lookup over object fields (keys are unique after `mkObjFields`). -/
def lookupField : List (Str × Json) → Str → Option Json
  | [], _ => none
  | (k', v') :: rest, k => if k' = k then some v' else lookupField rest k

/-- JS property access `v.k` on a parsed JSON value: `none` models `undefined`.
(On `null` the access would throw in JS; the evaluation routes only hand a
truthy `parsed` to the frontend, so `null` never reaches these accesses.) -/
def jsGet (v : Json) (k : Str) : Option Json :=
  match v with
  | Json.obj fields => lookupField fields k
  | _ => none

/-- Property access followed by the JS truthiness test, as in `if (p.results)`:
`some v` exactly when the property exists and is truthy. -/
def jsGetTruthy (p : Json) (k : Str) : Option Json :=
  match jsGet p k with
  | some v => if jsTruthy v then some v else none
  | none => none

/-- `Array.isArray` refinement: the element list when the value is an array.
A `none` at a use site below marks a value on which the source would go on to
call an array method that a non-array lacks (a JS `TypeError`). -/
def asArr : Json → Option (List Json)
  | Json.arr xs => some xs
  | _ => none

/-- Truthiness of the property `k` of `v`, as in the filter `v.metric && v.score`. -/
def truthyField (v : Json) (k : Str) : Bool :=
  match jsGet v k with
  | some w => jsTruthy w
  | none => false

/-- `Object.values` of a parsed JSON value.  (For a string JS would give its
characters, but every such value dies in the `v.metric && v.score` filter at
the single use site, so the empty list is observationally equal there.) -/
def objValues : Json → List Json
  | Json.obj fields => fields.map (fun kv => kv.2)
  | _ => []

/-- The metric array selection of `renderAllResults` (`src/public/script.js`
lines 127–135): the parsed value itself when it is an array, else a truthy
`metrics` property, else a truthy `results` property, else the filtered
`Object.values` fallback. -/
def extractMetricsArr (p : Json) : Option (List Json) :=
  match p with
  | Json.arr xs => some xs
  | _ =>
    match jsGetTruthy p "metrics".data with
    | some m => asArr m
    | none =>
      match jsGetTruthy p "results".data with
      | some r => asArr r
      | none =>
        some ((objValues p).filter fun v =>
          jsTruthy v && truthyField v "metric".data && truthyField v "score".data)

/-- The `common_improvements` extraction of `renderAllResults`
(`src/public/script.js` lines 146–148): a truthy `common_improvements`
property is listed; a falsy or absent one renders nothing. -/
def extractImprovements (p : Json) : Option (List Json) :=
  match jsGetTruthy p "common_improvements".data with
  | some v => asArr v
  | none => some []

/-- `needle` is a prefix of the second argument (helper for `hasSub`). -/
def startsWithStr : Str → Str → Bool
  | [], _ => true
  | _ :: _, [] => false
  | a :: as, b :: bs => a = b && startsWithStr as bs

/-- JS `String.prototype.includes`: `hasSub needle hay` is containment of
`needle` in `hay` (case-sensitive). -/
def hasSub (needle : Str) : Str → Bool
  | [] => startsWithStr needle []
  | c :: rest => startsWithStr needle (c :: rest) || hasSub needle rest

/-- The per-entry test `x.metric && x.metric.includes(metric)` of
`renderMetricResult` (`src/public/script.js` lines 88–93).  A truthy
non-string `metric` property would throw in JS at `.includes`; such an entry
is treated as a non-match here. -/
def entryMatches (metric : Str) (x : Json) : Bool :=
  match jsGet x "metric".data with
  | some (Json.str s) => (s != []) && hasSub metric s
  | _ => false

/-- JS `Array.prototype.find` with the metric-matching predicate. -/
def findEntry (metric : Str) : List Json → Option Json
  | [] => none
  | x :: xs => if entryMatches metric x then some x else findEntry metric xs

/-- Entry lookup of `renderMetricResult` (`src/public/script.js` lines 84–94):
an array is searched directly; else a matching object is itself the entry;
else a truthy `results` property is searched; else a `metrics` property that
is an array is searched. -/
def findMetricEntry (metric : Str) (p : Json) : Option Json :=
  match p with
  | Json.arr xs => findEntry metric xs
  | _ =>
    if entryMatches metric p then some p
    else
      match jsGetTruthy p "results".data with
      | some r =>
        match asArr r with
        | some rs => findEntry metric rs
        | none => none
      | none =>
        match jsGet p "metrics".data with
        | some m =>
          match asArr m with
          | some rs => findEntry metric rs
          | none => none
        | none => none

/-- A JS string-or-`undefined` value (`none` models `undefined`). -/
abbrev JsStr := Option Str

/-- Template-literal interpolation `${x}` of a string-or-`undefined` field:
`undefined` stringifies to the literal text `undefined`. -/
def jsTemplate : JsStr → Str
  | some s => s
  | none => "undefined".data

/-- JS `x || d` for a string-or-`undefined` `x`: the default is taken for
`undefined` and for the empty string (both falsy). -/
def jsOrDefault (x : JsStr) (d : Str) : Str :=
  match x with
  | some s => if s = [] then d else s
  | none => d

/-- The `details` record consumed by `constructPrompt`
(`src/server/server.js` line 75). -/
structure Details where
  url : JsStr
  videoType : JsStr
  purpose : JsStr
  keyConcepts : JsStr
  justifications : JsStr
  goal : JsStr
  title : JsStr

/-- The fixed instruction header of `constructPrompt`. -/
def headerText : Str :=
  "You are an expert reviewer for YouTube educational videos. Evaluate the following video and provide for each requested metric a numeric score from 1 (poor) to 10 (excellent) and a concise actionable feedback section with suggestions.".data

/-- The fixed closing instruction of `constructPrompt` (braces of the source
text written as their code points). -/
def instructionText : Str :=
  "Return a JSON object. For each metric include: \x7b \"metric\": \"<name>\", \"score\": <1-10>, \"feedback\": \"<actionable feedback>\" \x7d and at the end add a field \"common_improvements\" with an array of top 5 cross-metric suggestions. Output only valid JSON.".data

/-- The `videoInfo` template literal of `constructPrompt`
(`src/server/server.js` line 80): labeled lines in the fixed order
url, title, videoType, purpose, keyConcepts, justifications, goal. -/
def renderVideoInfo (d : Details) : Str :=
  "Video URL: ".data ++ jsTemplate d.url ++
  "\nTitle: ".data ++ jsOrDefault d.title "Unknown Title".data ++
  "\nVideo Type: ".data ++ jsTemplate d.videoType ++
  "\nPurpose: ".data ++ jsTemplate d.purpose ++
  "\nKey Concepts: ".data ++ jsTemplate d.keyConcepts ++
  "\nJustifications: ".data ++ jsTemplate d.justifications ++
  "\nEvaluation Goal: ".data ++ jsTemplate d.goal

/-- One numbered metric line, as in the template `(m, i) => (i+1) + '. ' + m`. -/
def numLine (k : Nat) (m : Str) : Str :=
  Nat.toDigits 10 k ++ ". ".data ++ m

/-- The numbered metric lines, first line numbered `k`.
`numberFrom 1 ms` is `metricList.map((m, i) => (i+1) + '. ' + m)`. -/
def numberFrom (k : Nat) : List Str → List Str
  | [] => []
  | m :: ms => numLine k m :: numberFrom (k + 1) ms

/-- JS `Array.prototype.join(sep)`. -/
def joinSep (sep : Str) : List Str → Str
  | [] => []
  | [s] => s
  | s :: t :: rest => s ++ sep ++ joinSep sep (t :: rest)

/-- The `metricsText` of `constructPrompt`. -/
def metricsTextOf (metricList : List Str) : Str :=
  joinSep ['\n'] (numberFrom 1 metricList)

/-- `constructPrompt` from `src/server/server.js` lines 74–89 (identical in
`src/amplify/functions/evaluator/index.js` lines 69–75). -/
def constructPrompt (details : Details) (metricList : List Str) : Str :=
  joinSep "\n\n".data
    [headerText, renderVideoInfo details, "Metrics to evaluate:".data,
     metricsTextOf metricList, instructionText]

/-- The fixed metric catalog (`METRICS` in `src/server/server.js` lines 38–58,
identical in the Lambda handler and the frontend). -/
def METRICS : List Str :=
  ["Clarity of problem articulation".data,
   "Purpose statement strength".data,
   "Logical flow of explanation".data,
   "Audience understanding level".data,
   "Concept simplification quality".data,
   "Technical accuracy of explanations".data,
   "Confidence in voice delivery".data,
   "Degree of passion conveyed".data,
   "Pacing and speed of narration".data,
   "Structural clarity of content".data,
   "Visual organization without styling".data,
   "Completeness of topic coverage".data,
   "Engagement level of the explanation".data,
   "Reasoning transparency".data,
   "Justification of technical decisions".data,
   "Clarity of transitions between topics".data,
   "Interview-readiness of communication".data,
   "Problem-solving mindset demonstration".data,
   "Career-oriented presentation quality".data]

/-- The url → title store (`videoDetails.json`), as an association list. -/
abbrev TitleDB := List (Str × Str)

/-- Assoc lookup in the title store; `none` models `undefined`. -/
def lookupDB : TitleDB → Str → Option Str
  | [], _ => none
  | (u, t) :: rest, url => if u = url then some t else lookupDB rest url

/-- `db[url] || 'Unknown Title'` (an absent or empty stored title is falsy). -/
def dbGet (db : TitleDB) (url : Str) : Str :=
  match lookupDB db url with
  | some t => if t = [] then "Unknown Title".data else t
  | none => "Unknown Title".data

/-- `db[url] = title` with JS object-assignment semantics. -/
def dbSet (db : TitleDB) (url title : Str) : TitleDB :=
  match db with
  | [] => [(url, title)]
  | (u, t) :: rest => if u = url then (u, title) :: rest else (u, t) :: dbSet rest url title

/-- The JSON body of an evaluation request.  Fields come from `req.body`;
`none` models an absent field.  (A request may also carry non-string JSON in a
field; the claims under study only concern string-or-absent fields.) -/
structure ReqBody where
  url : JsStr
  videoType : JsStr
  purpose : JsStr
  keyConcepts : JsStr
  justifications : JsStr
  goal : JsStr
  metric : JsStr

/-- The response bodies the evaluation routes can produce:
`err s m` is `res.status(s).json({ error: m })`, `okParsed` is
`{ ok: true, raw, parsed }`, `okRaw` is `{ ok: true, raw }` (no `parsed`). -/
inductive ApiResponse where
  | err (status : Nat) (message : Str) : ApiResponse
  | okParsed (raw : Str) (parsed : Json) : ApiResponse
  | okRaw (raw : Str) : ApiResponse

/-- Result of running a route handler: the response sent, whether
`callGemini` was invoked, and the title store after the request (the store is
threaded explicitly; `readVideoDB` consumes it, `writeVideoDB` replaces it). -/
structure RouteResult where
  resp : ApiResponse
  geminiCalled : Bool
  db : TitleDB

/-- `POST /api/evaluate-metric` (`src/server/server.js` lines 137–163).  The
backend is passed as a function `gemini` from prompt text to reply text. -/
def evaluateMetricRoute (db : TitleDB) (gemini : Str → Str) (b : ReqBody) : RouteResult :=
  match b.url, b.metric with
  | some url, some metric =>
    if url = [] || metric = [] then
      ⟨ApiResponse.err 400 "Missing url or metric".data, false, db⟩
    else
      let title := dbGet db url
      let details : Details :=
        ⟨some url, b.videoType, b.purpose, b.keyConcepts, b.justifications, b.goal, some title⟩
      let raw := gemini (constructPrompt details [metric])
      let parsed := tryParseJSON raw
      if jsTruthy parsed then ⟨ApiResponse.okParsed raw parsed, true, db⟩
      else ⟨ApiResponse.okRaw raw, true, db⟩
  | _, _ => ⟨ApiResponse.err 400 "Missing url or metric".data, false, db⟩

/-- `POST /api/evaluate-all` (`src/server/server.js` lines 165–187). -/
def evaluateAllRoute (db : TitleDB) (gemini : Str → Str) (b : ReqBody) : RouteResult :=
  match b.url with
  | some url =>
    if url = [] then ⟨ApiResponse.err 400 "Missing url".data, false, db⟩
    else
      let title := dbGet db url
      let details : Details :=
        ⟨some url, b.videoType, b.purpose, b.keyConcepts, b.justifications, b.goal, some title⟩
      let raw := gemini (constructPrompt details METRICS)
      let parsed := tryParseJSON raw
      if jsTruthy parsed then ⟨ApiResponse.okParsed raw parsed, true, db⟩
      else ⟨ApiResponse.okRaw raw, true, db⟩
  | none => ⟨ApiResponse.err 400 "Missing url".data, false, db⟩

/-- `POST /api/video-title` (`src/server/server.js` lines 123–135), the only
route that writes the title store. -/
def saveTitleRoute (db : TitleDB) (url title : JsStr) : RouteResult :=
  match url, title with
  | some u, some t =>
    if u = [] || t = [] then ⟨ApiResponse.err 400 "url and title required".data, false, db⟩
    else ⟨ApiResponse.okRaw [], false, dbSet db u t⟩
  | _, _ => ⟨ApiResponse.err 400 "url and title required".data, false, db⟩

/-- The terminal artifact of the pipeline (spec §3 `EvaluationOutcome`). -/
structure EvaluationOutcome where
  rawText : Str
  metricResults : List Json
  commonImprovements : List Json

/-- The composed normalization pipeline for one raw reply: the route attaches
`parsed` only when `tryParseJSON`'s result is truthy, and the frontend's
`renderAllResults` extraction then recovers the structured records; otherwise
only the raw text survives. -/
def normalizeReply (raw : Str) : EvaluationOutcome :=
  let parsed := tryParseJSON raw
  if jsTruthy parsed then
    ⟨raw, (extractMetricsArr parsed).getD [], (extractImprovements parsed).getD []⟩
  else ⟨raw, [], []⟩

/-- A structured metric entry of the documented output shape. -/
structure MetricEntry where
  metric : Str
  score : Int
  feedback : Str

/-- The JSON value of one documented metric entry. -/
def entryJson (e : MetricEntry) : Json :=
  Json.obj
    [("metric".data, Json.str e.metric),
     ("score".data, Json.num e.score),
     ("feedback".data, Json.str e.feedback)]

/-- The documented output shape: an object holding the metric entries under
`key` (the backend may use `results` or `metrics`), with an optional trailing
`common_improvements` list of suggestion strings. -/
def docJson (key : Str) (entries : List MetricEntry) (imp : Option (List Str)) : Json :=
  Json.obj
    ((key, Json.arr (entries.map entryJson)) ::
      (match imp with
       | some l => [("common_improvements".data, Json.arr (l.map Json.str))]
       | none => []))

/-- A text containing neither of the two brace characters. -/
def braceFree (cs : Str) : Prop := ∀ c ∈ cs, c ≠ lbrace ∧ c ≠ rbrace

instance (cs : Str) : Decidable (braceFree cs) :=
  inferInstanceAs (Decidable (∀ c ∈ cs, c ≠ lbrace ∧ c ≠ rbrace))

theorem idxOf_append_head (c : Char) (pre rest : Str) (h : ∀ a ∈ pre, a ≠ c) :
    idxOf c (pre ++ c :: rest) = some pre.length := by
  induction pre with
  | nil => simp [idxOf]
  | cons x xs ih =>
    have hx : x ≠ c := h x (List.mem_cons_self x xs)
    simp [idxOf, hx, ih (fun a ha => h a (List.mem_cons_of_mem _ ha))]

theorem lastIdxOf_eq_none (c : Char) (cs : Str) (h : ∀ a ∈ cs, a ≠ c) :
    lastIdxOf c cs = none := by
  induction cs with
  | nil => rfl
  | cons x xs ih =>
    have hx : x ≠ c := h x (List.mem_cons_self x xs)
    simp [lastIdxOf, hx, ih (fun a ha => h a (List.mem_cons_of_mem _ ha))]

theorem lastIdxOf_append_last (c : Char) (xs post : Str) (h : ∀ a ∈ post, a ≠ c) :
    lastIdxOf c (xs ++ c :: post) = some xs.length := by
  induction xs with
  | nil => simp [lastIdxOf, lastIdxOf_eq_none c post h]
  | cons x t ih => simp [lastIdxOf, ih]

/-- Claim C1: for every string input, `tryParseJSON` returns a value (it is a
total function by construction); the composed outcome always preserves the raw
text unchanged, and when `tryParseJSON` yields the JS `null` result the
structured fields of the outcome are empty. -/
theorem normalizeReply_never_fails (text : Str) :
    (normalizeReply text).rawText = text ∧
    (tryParseJSON text = Json.null →
      normalizeReply text = ⟨text, [], []⟩) := by
  constructor
  · cases h : jsTruthy (tryParseJSON text) <;> simp [normalizeReply, h]
  · intro h
    simp [normalizeReply, h, jsTruthy]

/-- Witness for C1 on malformed-brace prose input. -/
theorem normalizeReply_never_fails_witness :
    (normalizeReply "oops \x7b\x7b".data).rawText = "oops \x7b\x7b".data ∧
    normalizeReply "oops \x7b\x7b".data = ⟨"oops \x7b\x7b".data, [], []⟩ :=
  ⟨(normalizeReply_never_fails "oops \x7b\x7b".data).1,
   (normalizeReply_never_fails "oops \x7b\x7b".data).2 rfl⟩

/-- Claim C5: `renderMetricResult` matches a requested metric name against an
entry's `metric` field by case-sensitive substring containment (`includes`),
not exact equality: any non-empty `metric` field containing the requested name
makes the entry found, and its `score` field is reported. -/
theorem metric_substring_match (metric s : Str) (score : Int) (fb : Str)
    (hne : s ≠ []) (hsub : hasSub metric s = true) :
    findMetricEntry metric
        (Json.obj [("metric".data, Json.str s), ("score".data, Json.num score),
                   ("feedback".data, Json.str fb)])
      = some (Json.obj [("metric".data, Json.str s), ("score".data, Json.num score),
                        ("feedback".data, Json.str fb)]) ∧
    jsGet (Json.obj [("metric".data, Json.str s), ("score".data, Json.num score),
                     ("feedback".data, Json.str fb)]) "score".data
      = some (Json.num score) := by
  have hm : entryMatches metric
      (Json.obj [("metric".data, Json.str s), ("score".data, Json.num score),
                 ("feedback".data, Json.str fb)]) = true := by
    simp [entryMatches, jsGet, lookupField, hsub, hne]
  constructor
  · simp [findMetricEntry, hm]
  · rfl

/-- Witness for C5: the concrete scenario of the claim, where the returned
metric label carries a " (partial)" suffix and is still matched, score 7. -/
theorem metric_substring_match_witness :
    findMetricEntry "Clarity of problem articulation".data
        (Json.obj [("metric".data, Json.str "Clarity of problem articulation (partial)".data),
                   ("score".data, Json.num 7),
                   ("feedback".data, Json.str "Good but rushed.".data)])
      = some (Json.obj [("metric".data, Json.str "Clarity of problem articulation (partial)".data),
                        ("score".data, Json.num 7),
                        ("feedback".data, Json.str "Good but rushed.".data)]) ∧
    jsGet (Json.obj [("metric".data, Json.str "Clarity of problem articulation (partial)".data),
                     ("score".data, Json.num 7),
                     ("feedback".data, Json.str "Good but rushed.".data)]) "score".data
      = some (Json.num 7) :=
  metric_substring_match "Clarity of problem articulation".data
    "Clarity of problem articulation (partial)".data 7 "Good but rushed.".data
    (by decide) (by decide)

/-- Claim C7: a request missing its required fields (`url` for both routes,
additionally `metric` for the single-metric route) gets status 400 and the
backend is never called. -/
theorem routes_reject_missing_required (db : TitleDB) (gemini : Str → Str) (b : ReqBody) :
    ((b.url = none ∨ b.metric = none) →
      evaluateMetricRoute db gemini b =
        ⟨ApiResponse.err 400 "Missing url or metric".data, false, db⟩) ∧
    (b.url = none →
      evaluateAllRoute db gemini b =
        ⟨ApiResponse.err 400 "Missing url".data, false, db⟩) := by
  constructor
  · intro h
    unfold evaluateMetricRoute
    rcases h with h | h
    · rw [h]
    · rw [h]
      rcases b.url with _ | u <;> rfl
  · intro h
    unfold evaluateAllRoute
    rw [h]

/-- Witness for C7: the fully absent request body. -/
theorem routes_reject_missing_required_witness :
    evaluateMetricRoute [] (fun _ => []) ⟨none, none, none, none, none, none, none⟩ =
      ⟨ApiResponse.err 400 "Missing url or metric".data, false, []⟩ ∧
    evaluateAllRoute [] (fun _ => []) ⟨none, none, none, none, none, none, none⟩ =
      ⟨ApiResponse.err 400 "Missing url".data, false, []⟩ :=
  ⟨(routes_reject_missing_required [] (fun _ => []) ⟨none, none, none, none, none, none, none⟩).1
      (Or.inl rfl),
   (routes_reject_missing_required [] (fun _ => []) ⟨none, none, none, none, none, none, none⟩).2
      rfl⟩

/-- Claim C8: the evaluation routes only read the title store; for every
request the store after the request equals the store before it. -/
theorem evaluation_routes_read_only_titles (db : TitleDB) (gemini : Str → Str) (b : ReqBody) :
    (evaluateMetricRoute db gemini b).db = db ∧
    (evaluateAllRoute db gemini b).db = db := by
  constructor
  · unfold evaluateMetricRoute
    rcases b.url with _ | u <;> rcases b.metric with _ | m <;> dsimp
    split
    · rfl
    · split <;> rfl
  · unfold evaluateAllRoute
    rcases b.url with _ | u <;> dsimp
    split
    · rfl
    · split <;> rfl

/-- Claim C9: `constructPrompt` is total and unchecked on the empty metric
list: the prompt it returns has an empty metrics section between the
`Metrics to evaluate:` label and the closing instruction. -/
theorem constructPrompt_total_empty_metrics (d : Details) :
    constructPrompt d [] =
      headerText ++ "\n\n".data ++ renderVideoInfo d ++ "\n\n".data ++
      "Metrics to evaluate:".data ++ "\n\n".data ++ "\n\n".data ++ instructionText := by
  simp [constructPrompt, metricsTextOf, numberFrom, joinSep, List.append_assoc]

/-- Claim C10: a backend reply that is the valid JSON text of a falsy value
parses successfully, but the truthiness gate makes both Express evaluation
routes respond `{ ok: true, raw }` with no `parsed` field, exactly as for
malformed text. -/
theorem falsy_parsed_treated_as_unparsed (db : TitleDB) (vt p kc j g : JsStr)
    (url metric raw : Str) (v : Json)
    (hp : parseJSON raw = some v) (hf : jsTruthy v = false)
    (hu : url ≠ []) (hm : metric ≠ []) :
    (evaluateMetricRoute db (fun _ => raw) ⟨some url, vt, p, kc, j, g, some metric⟩).resp
        = ApiResponse.okRaw raw ∧
    (evaluateAllRoute db (fun _ => raw) ⟨some url, vt, p, kc, j, g, some metric⟩).resp
        = ApiResponse.okRaw raw := by
  have ht : tryParseJSON raw = v := by
    unfold tryParseJSON
    rw [hp]
  constructor
  · unfold evaluateMetricRoute
    dsimp
    rw [if_neg (by simp [hu, hm]), ht, hf]
    rfl
  · unfold evaluateAllRoute
    dsimp
    rw [if_neg (by simp [hu]), ht, hf]
    rfl

/-- Witness for C10 at the falsy JSON reply `0`. -/
theorem falsy_parsed_treated_as_unparsed_witness :
    (evaluateMetricRoute [] (fun _ => "0".data)
        ⟨some "u".data, none, none, none, none, none, some "m".data⟩).resp
      = ApiResponse.okRaw "0".data ∧
    (evaluateAllRoute [] (fun _ => "0".data)
        ⟨some "u".data, none, none, none, none, none, some "m".data⟩).resp
      = ApiResponse.okRaw "0".data :=
  falsy_parsed_treated_as_unparsed [] none none none none none
    "u".data "m".data "0".data (Json.num 0) rfl rfl (by decide) (by decide)

set_option maxRecDepth 20000

/-- Claim C6: the prompt renders the request fields as labeled lines in the
fixed order url, title, videoType, purpose, keyConcepts, justifications,
goal; every missing optional field renders as the literal text `undefined`
(the JS stringification of `undefined`), and a missing title renders as the
literal text `Unknown Title`. -/
theorem prompt_fixed_field_order (ms : List Str) (url : Str) :
    constructPrompt ⟨some url, none, none, none, none, none, none⟩ ms =
      headerText ++ "\n\n".data ++
      ("Video URL: ".data ++ url ++ "\nTitle: ".data ++ "Unknown Title".data ++
       "\nVideo Type: ".data ++ "undefined".data ++ "\nPurpose: ".data ++ "undefined".data ++
       "\nKey Concepts: ".data ++ "undefined".data ++ "\nJustifications: ".data ++
       "undefined".data ++ "\nEvaluation Goal: ".data ++ "undefined".data) ++
      "\n\n".data ++ "Metrics to evaluate:".data ++ "\n\n".data ++
      metricsTextOf ms ++ "\n\n".data ++ instructionText := by
  simp [constructPrompt, renderVideoInfo, jsTemplate, jsOrDefault, joinSep, List.append_assoc]

/-- Claim C3: round-trip through the documented output shape.  For every raw
text that parses as the documented JSON object (metric entries under the
conventional key, optional trailing `common_improvements`), `tryParseJSON`
recovers that object, `renderAllResults` extraction recovers exactly the
source entries with matching `metric`/`score`/`feedback` fields, and the
`common_improvements` extraction recovers the source list, an absent field
yielding the empty list. -/
theorem roundtrip_documented_shape (raw key : Str)
    (entries : List MetricEntry) (imp : Option (List Str))
    (hkey : key = "results".data ∨ key = "metrics".data)
    (hp : parseJSON raw = some (docJson key entries imp)) :
    tryParseJSON raw = docJson key entries imp ∧
    extractMetricsArr (docJson key entries imp) = some (entries.map entryJson) ∧
    extractImprovements (docJson key entries imp)
        = some ((imp.getD []).map Json.str) ∧
    ∀ e ∈ entries,
      jsGet (entryJson e) "metric".data = some (Json.str e.metric) ∧
      jsGet (entryJson e) "score".data = some (Json.num e.score) ∧
      jsGet (entryJson e) "feedback".data = some (Json.str e.feedback) := by
  refine ⟨?_, ?_, ?_, ?_⟩
  · unfold tryParseJSON
    rw [hp]
  · rcases hkey with h | h <;> subst h <;> rcases imp with _ | l <;> rfl
  · rcases hkey with h | h <;> subst h <;> rcases imp with _ | l <;> rfl
  · intro e _
    exact ⟨rfl, rfl, rfl⟩

/-- Witness for C3: a one-entry documented reply with one common improvement. -/
theorem roundtrip_documented_shape_witness :
    tryParseJSON "\x7b\"results\":[\x7b\"metric\":\"A\",\"score\":7,\"feedback\":\"ok\"\x7d],\"common_improvements\":[\"x\"]\x7d".data
        = docJson "results".data [⟨"A".data, 7, "ok".data⟩] (some ["x".data]) ∧
    extractMetricsArr (docJson "results".data [⟨"A".data, 7, "ok".data⟩] (some ["x".data]))
        = some ([⟨"A".data, 7, "ok".data⟩].map entryJson) ∧
    extractImprovements (docJson "results".data [⟨"A".data, 7, "ok".data⟩] (some ["x".data]))
        = some (((some ["x".data]).getD []).map Json.str) ∧
    ∀ e ∈ ([⟨"A".data, 7, "ok".data⟩] : List MetricEntry),
      jsGet (entryJson e) "metric".data = some (Json.str e.metric) ∧
      jsGet (entryJson e) "score".data = some (Json.num e.score) ∧
      jsGet (entryJson e) "feedback".data = some (Json.str e.feedback) :=
  roundtrip_documented_shape
    "\x7b\"results\":[\x7b\"metric\":\"A\",\"score\":7,\"feedback\":\"ok\"\x7d],\"common_improvements\":[\"x\"]\x7d".data
    "results".data [⟨"A".data, 7, "ok".data⟩] (some ["x".data]) (Or.inl rfl) rfl

/-- Claim C2 (amended): `tryParseJSON` is first-success-wins — a full parse
returns its value; with a failed full parse and a missing delimiter the
unparsed fallback (JS `null`) results; and a valid JSON object surrounded by
brace-free text is recovered, provided the surrounding text does not combine
with the object into a complete JSON document of a different value (the full
text fails to parse, or parses to the same value). -/
theorem tryParseJSON_twoStep_recovery :
    (∀ (text : Str) (v : Json), parseJSON text = some v → tryParseJSON text = v) ∧
    (∀ text : Str, parseJSON text = none →
      (idxOf lbrace text = none ∨ lastIdxOf rbrace text = none) →
      tryParseJSON text = Json.null) ∧
    (∀ (pre mid post : Str) (v : Json), braceFree pre → braceFree post →
      parseJSON (lbrace :: mid ++ [rbrace]) = some v →
      (parseJSON (pre ++ (lbrace :: mid ++ [rbrace]) ++ post) = none ∨
       parseJSON (pre ++ (lbrace :: mid ++ [rbrace]) ++ post) = some v) →
      tryParseJSON (pre ++ (lbrace :: mid ++ [rbrace]) ++ post) = v) := by
  refine ⟨?_, ?_, ?_⟩
  · intro text v h
    unfold tryParseJSON
    rw [h]
  · intro text hfail hmiss
    unfold tryParseJSON
    rw [hfail]
    rcases hmiss with h | h
    · rw [h]
    · rw [h]
      rcases idxOf lbrace text with _ | s <;> rfl
  · intro pre mid post v hpre hpost hobj hfull
    rcases hfull with hfull | hfull
    · unfold tryParseJSON
      rw [hfull]
      have hshape : pre ++ (lbrace :: mid ++ [rbrace]) ++ post
          = pre ++ lbrace :: (mid ++ rbrace :: post) := by
        simp
      have hidx : idxOf lbrace (pre ++ (lbrace :: mid ++ [rbrace]) ++ post)
          = some pre.length := by
        rw [hshape]
        exact idxOf_append_head lbrace pre (mid ++ rbrace :: post)
          (fun a ha => (hpre a ha).1)
      have hshape2 : pre ++ (lbrace :: mid ++ [rbrace]) ++ post
          = (pre ++ lbrace :: mid) ++ rbrace :: post := by
        simp
      have hlast : lastIdxOf rbrace (pre ++ (lbrace :: mid ++ [rbrace]) ++ post)
          = some (pre.length + (mid.length + 1)) := by
        rw [hshape2, lastIdxOf_append_last rbrace (pre ++ lbrace :: mid) post
          (fun a ha => (hpost a ha).2)]
        simp
      rw [hidx, hlast]
      dsimp only
      have hlt : pre.length < pre.length + (mid.length + 1) := by omega
      rw [if_pos hlt]
      have hslice : sliceJS (pre ++ (lbrace :: mid ++ [rbrace]) ++ post)
          pre.length (pre.length + (mid.length + 1) + 1)
          = lbrace :: mid ++ [rbrace] := by
        unfold sliceJS
        rw [hshape]
        rw [List.drop_left]
        have hn : pre.length + (mid.length + 1) + 1 - pre.length = mid.length + 2 := by
          omega
        rw [hn]
        have hform : lbrace :: (mid ++ rbrace :: post)
            = (lbrace :: mid ++ [rbrace]) ++ post := by
          simp
        rw [hform]
        exact List.take_left' (by simp)
      rw [hslice, hobj]
    · unfold tryParseJSON
      rw [hfull]

/-- Witness for C2 (amended): the spec's own example, prose around a JSON
object, recovered by the substring step. -/
theorem tryParseJSON_twoStep_recovery_witness :
    tryParseJSON ("Here is the result: ".data
        ++ (lbrace :: "\"a\":1".data ++ [rbrace]) ++ " Thanks!".data)
      = Json.obj [("a".data, Json.num 1)] :=
  tryParseJSON_twoStep_recovery.2.2 "Here is the result: ".data "\"a\":1".data
    " Thanks!".data (Json.obj [("a".data, Json.num 1)])
    (by decide) (by decide) rfl (Or.inl rfl)

/-- Counterexample to C2 as stated: the brace-free surroundings `[` and `]`
wrap the object into a larger valid JSON document, so normalization returns
the surrounding array, not the bare object's value. -/
theorem tryParseJSON_recovery_counterexample :
    ("[".data ++ (lbrace :: "\"a\":1".data ++ [rbrace]) ++ "]".data
        = "[\x7b\"a\":1\x7d]".data) ∧
    braceFree "[".data ∧ braceFree "]".data ∧
    parseJSON (lbrace :: "\"a\":1".data ++ [rbrace])
        = some (Json.obj [("a".data, Json.num 1)]) ∧
    tryParseJSON "[\x7b\"a\":1\x7d]".data
        = Json.arr [Json.obj [("a".data, Json.num 1)]] ∧
    Json.arr [Json.obj [("a".data, Json.num 1)]] ≠ Json.obj [("a".data, Json.num 1)] := by
  refine ⟨rfl, by decide, by decide, rfl, rfl, ?_⟩
  intro h
  exact Json.noConfusion h

theorem numbered_block_decomp :
    ∀ (ms : List Str) (k i : Nat) (m' : Str), ms.get? i = some m' → ∀ tail : Str,
      ∃ p s, '\n' :: (joinSep ['\n'] (numberFrom k ms) ++ '\n' :: tail)
        = p ++ ('\n' :: numLine (k + i) m') ++ ('\n' :: s) := by
  intro ms
  induction ms with
  | nil =>
    intro k i m' hm tail
    simp at hm
  | cons m rest ih =>
    intro k i m' hm tail
    cases i with
    | zero =>
      simp only [List.get?] at hm
      injection hm with hm
      subst hm
      cases rest with
      | nil =>
        refine ⟨[], tail, ?_⟩
        simp [numberFrom, joinSep]
      | cons r rs =>
        refine ⟨[], joinSep ['\n'] (numberFrom (k + 1) (r :: rs)) ++ '\n' :: tail, ?_⟩
        simp [numberFrom, joinSep, List.append_assoc]
    | succ j =>
      simp only [List.get?] at hm
      cases rest with
      | nil => simp at hm
      | cons r rs =>
        obtain ⟨p', s', hp⟩ := ih (k + 1) j m' hm tail
        refine ⟨'\n' :: numLine k m ++ p', s', ?_⟩
        have harith : k + 1 + j = k + (j + 1) := by omega
        rw [harith] at hp
        simp only [numberFrom, joinSep, List.append_assoc, List.cons_append,
          List.nil_append] at hp ⊢
        rw [hp]

/-- Claim C4: the prompt built by `constructPrompt` contains every requested
metric name, each on its own line, the `i`-th (0-based) requested metric on
the line numbered `i+1`; numbering is thus consecutive from 1 in the order of
the input list. -/
theorem prompt_numbered_metric_lines (d : Details) (ms : List Str) (i : Nat) (m' : Str)
    (hm : ms.get? i = some m') :
    ∃ p s, constructPrompt d ms = p ++ ('\n' :: numLine (i + 1) m') ++ ('\n' :: s) := by
  obtain ⟨p', s', hp⟩ := numbered_block_decomp ms 1 i m' hm ('\n' :: instructionText)
  have hone : 1 + i = i + 1 := by omega
  rw [hone] at hp
  refine ⟨headerText ++ "\n\n".data ++ renderVideoInfo d ++ "\n\n".data
      ++ "Metrics to evaluate:".data ++ ['\n'] ++ p', s', ?_⟩
  have hexp : constructPrompt d ms
      = headerText ++ "\n\n".data ++ renderVideoInfo d ++ "\n\n".data
        ++ "Metrics to evaluate:".data ++ ['\n']
        ++ ('\n' :: (joinSep ['\n'] (numberFrom 1 ms) ++ '\n' :: ('\n' :: instructionText))) := by
    have hnn : "\n\n".data = ['\n', '\n'] := rfl
    simp [constructPrompt, metricsTextOf, joinSep, hnn, List.append_assoc]
  rw [hexp, hp]
  simp [List.append_assoc]

/-- Witness for C4: the spec's concrete request with the single metric
"Pacing and speed of narration" on line "1. ...". -/
theorem prompt_numbered_metric_lines_witness :
    ∃ p s, constructPrompt
        ⟨some "v1".data, some "tutorial".data, some "teach X".data,
         none, none, none, none⟩
        ["Pacing and speed of narration".data]
      = p ++ ('\n' :: numLine 1 "Pacing and speed of narration".data) ++ ('\n' :: s) :=
  prompt_numbered_metric_lines
    ⟨some "v1".data, some "tutorial".data, some "teach X".data, none, none, none, none⟩
    ["Pacing and speed of narration".data] 0 "Pacing and speed of narration".data rfl
